import Mathlib

/-!
Verification development for the S3Tables storage-insights collector
(`run.py`): catalog enumeration, per-table metric extraction, Prometheus
publication and the per-table pipeline, shallowly embedded in Lean.

Python values that flow into metric records are modelled by `PyVal`
(a numeric value, idealized as a rational, or `null` for a value on which
`float(...)` raises). The query engine, the catalog paginator and the
push gateway are external collaborators; their responses are inputs to
the embedded functions, and an exception raised by the embedded Python
code is modelled by `none` / `Except.error` results.
-/

/-- A Python value stored in a metrics record: a number (Python int/float,
idealized as an exact rational), or a value not coercible to float
(e.g. `None`), on which `float(value)` raises `TypeError`/`ValueError`. -/
inductive PyVal where
  | num (q : ℚ)
  | null
deriving DecidableEq, Repr

/-- The single row returned by the aggregation query in `get_table_metrics`:
`count(*)` is never null; the three sums are null for a table with zero
partitions (SQL `sum` over zero rows). -/
structure EngineRow where
  partition_count : Nat
  total_files : Option Int
  total_bytes : Option Int
  total_records : Option Int
deriving DecidableEq, Repr

/-- Python `x or 0` applied to an int-or-None value (`metrics.total_files or 0`):
`None` becomes `0`; an int is kept (`0 or 0` is `0`, so `getD` agrees). -/
def orZero (x : Option Int) : Int :=
  x.getD 0

/-- The dict built by `get_table_metrics`: `database`, `table` and the
ordered `metrics` dict (Python dicts preserve insertion order). -/
structure MetricsRecord where
  database : String
  table : String
  metrics : List (String × PyVal)
deriving DecidableEq, Repr

/-- `get_table_metrics(spark, namespace, table)` from `run.py`.

The engine's behaviour is the `engine` argument: an error if `spark.sql`
(or `collect`) raises, otherwise the single result row. The function
returns `none` when the `try` block raises (the `except` logs and returns
`None`): either the engine raised, or — when `partition_count > 0` but
`total_bytes` is null — the expression `metrics.total_bytes /
metrics.partition_count` raises `TypeError` (`None / int`). Python `/` is
true division, idealized as exact division in `ℚ`. -/
def get_table_metrics (names table : String) (engine : Except String EngineRow) :
    Option MetricsRecord :=
  match engine with
  | .error _ => none
  | .ok row =>
    if row.partition_count > 0 then
      match row.total_bytes with
      | none => none
      | some b =>
        some { database := names, table := table,
               metrics :=
                [("partition_count", .num (row.partition_count : ℚ)),
                 ("file_count", .num ((orZero row.total_files : Int) : ℚ)),
                 ("total_bytes", .num ((b : Int) : ℚ)),
                 ("total_records", .num ((orZero row.total_records : Int) : ℚ)),
                 ("avg_partition_size", .num ((b : ℚ) / (row.partition_count : ℚ)))] }
    else
      some { database := names, table := table,
             metrics :=
              [("partition_count", .num (row.partition_count : ℚ)),
               ("file_count", .num ((orZero row.total_files : Int) : ℚ)),
               ("total_bytes", .num ((orZero row.total_bytes : Int) : ℚ)),
               ("total_records", .num ((orZero row.total_records : Int) : ℚ)),
               ("avg_partition_size", .num 0)] }

/-- Python `float(value)` under `except (TypeError, ValueError)`: succeeds on
a number, fails (raises, caught by the loop) on a non-coercible value. -/
def coerceFloat : PyVal → Option ℚ
  | .num q => some q
  | .null => none

/-- The `table_metrics` dict of `push_metrics_to_prometheus`: metric-record
field name to Prometheus gauge name, in source order. -/
def tableMetricsGauges : List (String × String) :=
  [("partition_count", "iceberg_table_partitions"),
   ("file_count", "iceberg_table_files"),
   ("total_bytes", "iceberg_storage_total_bytes"),
   ("total_records", "iceberg_table_records"),
   ("avg_partition_size", "iceberg_table_avg_partition_size")]

/-- A gauge registered in a collector registry: its name and its label
names (`Gauge(name, doc, ['database', 'table'], registry=registry)`). -/
structure GaugeDecl where
  name : String
  labelNames : List String
deriving DecidableEq, Repr

/-- A value set on a gauge for a concrete label assignment
(`gauge.labels(**labels).set(v)`). -/
structure Sample where
  name : String
  labels : List (String × String)
  value : ℚ
deriving DecidableEq, Repr

/-- A `CollectorRegistry`: the gauges registered into it and the samples
set on them. -/
structure CollectorRegistry where
  collectors : List GaugeDecl
  samples : List Sample
deriving DecidableEq, Repr

/-- The gauges registered into the fresh registry, in source order: the
five metric gauges of the `table_metrics` dict, then `iceberg_table_info`. -/
def registeredGauges : List GaugeDecl :=
  (tableMetricsGauges.map fun p => { name := p.2, labelNames := ["database", "table"] })
    ++ [{ name := "iceberg_table_info", labelNames := ["database", "table"] }]

/-- The `labels` dict: `{'database': metrics['database'], 'table': metrics['table']}`. -/
def metricLabels (m : MetricsRecord) : List (String × String) :=
  [("database", m.database), ("table", m.table)]

/-- The registry built by one `push_metrics_to_prometheus` call, freshly
created per call (`registry = CollectorRegistry()`): `table_info` is set
to `1` first; then the loop over `metrics['metrics'].items()` sets, for
each field that names a gauge in `table_metrics`, the float-coerced value
— skipping (`continue`) a field whose value fails coercion. -/
def buildRegistry (m : MetricsRecord) : CollectorRegistry :=
  { collectors := registeredGauges,
    samples :=
      { name := "iceberg_table_info", labels := metricLabels m, value := 1 } ::
        m.metrics.filterMap fun kv =>
          match tableMetricsGauges.lookup kv.1, coerceFloat kv.2 with
          | some g, some q => some { name := g, labels := metricLabels m, value := q }
          | _, _ => none }

/-- The single `push_to_gateway` request: gateway address, the constant
job name, the grouping key `{'database': ..., 'table': ...}` and the whole
per-call registry. -/
structure PushRequest where
  gateway : String
  job : String
  groupingKey : String × String
  registry : CollectorRegistry
deriving DecidableEq, Repr

/-- The request a failed `push_to_gateway` call was attempting; carried by
the re-raised exception so callers (and traces) can see what was pushed. -/
structure PushError where
  attempted : PushRequest
deriving DecidableEq, Repr

/-- The push request `push_metrics_to_prometheus` builds for a record. -/
def pushRequestOf (gateway : String) (m : MetricsRecord) : PushRequest :=
  { gateway := gateway, job := "iceberg_metrics",
    groupingKey := (m.database, m.table), registry := buildRegistry m }

/-- `push_metrics_to_prometheus(metrics, prometheus_gateway)` from `run.py`.

`gatewayOk` is whether the `push_to_gateway` network call succeeds. The
registry construction and the gauge-setting loop cannot raise (coercion
failures are caught by the inner `except` and skipped); a push failure is
logged and re-raised (`raise` in the inner handler, then `raise` again in
the outer handler), so the call errors exactly when the push fails. -/
def push_metrics_to_prometheus (m : MetricsRecord) (gateway : String)
    (gatewayOk : Bool) : Except PushError PushRequest :=
  let req := pushRequestOf gateway m
  if gatewayOk then .ok req else .error { attempted := req }

/-- Observable events of one `process_table` call, in order: the error log
of a failed extraction (`get_table_metrics` logged and returned `None`),
the `print(json.dumps(metrics))` emission to standard output, a successful
gateway push, and a failed (attempted, then raised) gateway push. -/
inductive Event where
  | extractionError (names table : String)
  | emit (m : MetricsRecord)
  | pushOk (req : PushRequest)
  | pushFail (req : PushRequest)
deriving DecidableEq, Repr

/-- `process_table(spark, namespace, table, prometheus_gateway)` from
`run.py`: extract; if the record is produced, print it and push it,
returning `True`; on `None` return `False` (no push attempted); an
exception raised by the publish is caught by the `except`, which logs and
returns `False`. The returned pair is the Python return value together
with the ordered trace of observable events. -/
def process_table (names table : String) (engine : Except String EngineRow)
    (gateway : String) (gatewayOk : Bool) : Bool × List Event :=
  match get_table_metrics names table engine with
  | none => (false, [.extractionError names table])
  | some m =>
    match push_metrics_to_prometheus m gateway gatewayOk with
    | .ok req => (true, [.emit m, .pushOk req])
    | .error e => (false, [.emit m, .pushFail e.attempted])

/-- The per-namespace dispatch in `main`: one `process_table` call per
listed table (the thread pool runs them isolated; results are collected
per table). `engine` and `gatewayOk` give each table's collaborator
behaviour. -/
def run_tables (names : String) (tables : List String)
    (engine : String → Except String EngineRow) (gateway : String)
    (gatewayOk : String → Bool) : List (String × Bool) :=
  tables.map fun t => (t, (process_table names t (engine t) gateway (gatewayOk t)).1)

/-- A namespace descriptor as returned by the catalog: `page['namespaces']`
entries carry either a plain string or a (composite) list of strings. -/
inductive NamespaceDesc where
  | str (s : String)
  | list (l : List String)
deriving DecidableEq, Repr

/-- The normalization applied by `list_namespaces` (and `list_tables`):
`namespace_value[0] if isinstance(namespace_value, list) else
namespace_value`. Indexing an empty list raises `IndexError`, modelled as
`none`. -/
def normalize_namespace : NamespaceDesc → Option String
  | .str s => some s
  | .list [] => none
  | .list (s :: _) => some s

/-- The namespace-collecting loop of `list_namespaces`: normalize each
descriptor in order; an `IndexError` anywhere aborts the whole loop. -/
def normalizeAll : List NamespaceDesc → Option (List String)
  | [] => some []
  | d :: l =>
    match normalize_namespace d, normalizeAll l with
    | some s, some rest => some (s :: rest)
    | _, _ => none

/-- `list_namespaces(s3tables_client, warehouse_arn)` from `run.py`. `pages`
is the paginator's behaviour: an error if pagination raises, else the
namespace descriptors page by page. Any exception inside the `try` — a
paginator error or an `IndexError` while normalizing a descriptor — is
caught, logged, and the function returns `[]` (the partially built list is
discarded). -/
def list_namespaces (pages : Except String (List (List NamespaceDesc))) :
    List String :=
  match pages with
  | .error _ => []
  | .ok ps =>
    match normalizeAll ps.flatten with
    | some l => l
    | none => []

/-- A table descriptor from `page['tables']`; `list_tables` keeps
`table['name']`. -/
structure TableDesc where
  name : String
deriving DecidableEq, Repr

/-- `list_tables(s3tables_client, warehouse_arn, namespace)` from `run.py`:
the namespace argument is normalized first (`namespace[0] if
isinstance(namespace, list) else namespace`); then the paginator is
iterated and each table's name collected. Any exception — `IndexError` on
an empty list namespace, or a paginator error — is caught, logged, and the
function returns `[]`. -/
def list_tables (names : NamespaceDesc)
    (pages : Except String (List (List TableDesc))) : List String :=
  match normalize_namespace names with
  | none => []
  | some _ =>
    match pages with
    | .error _ => []
    | .ok ps => (ps.flatten).map TableDesc.name

/-- The push gateway's store: current registry per grouping key.

Modelled from the spec: the metrics gateway is an external collaborator
(`prometheus_client.push_to_gateway` and the Pushgateway server are not
part of this repository); per the spec it is a "push-accepting HTTP
endpoint with grouping-key semantics" where a push for a grouping key
fully replaces the value set held for that key. -/
abbrev GatewayState : Type :=
  List ((String × String) × CollectorRegistry)

/-- Modelled from the spec: applying one push request to the gateway store
— the registry pushed under a grouping key replaces the registry held for
that key (or is added if the key is new); other keys are untouched. -/
def applyPush (st : GatewayState) (req : PushRequest) : GatewayState :=
  if st.any fun p => p.1 = req.groupingKey then
    st.map fun p =>
      if p.1 = req.groupingKey then (req.groupingKey, req.registry) else p
  else st ++ [(req.groupingKey, req.registry)]

/-- Fixture: an engine row for a populated table (4 partitions, 4096 bytes). -/
def rowA : EngineRow :=
  { partition_count := 4, total_files := some 10, total_bytes := some 4096,
    total_records := some 1000 }

/-- The record extraction produces from `rowA`. -/
def mA : MetricsRecord :=
  { database := "ns", table := "t",
    metrics := [("partition_count", .num 4), ("file_count", .num 10),
                ("total_bytes", .num 4096), ("total_records", .num 1000),
                ("avg_partition_size", .num 1024)] }

/-- Fixture: an engine row for a table with zero partitions — `count(*)` is
`0` and all three sums are SQL null. -/
def rowZ : EngineRow :=
  { partition_count := 0, total_files := none, total_bytes := none,
    total_records := none }

/-- The record extraction produces from `rowZ`. -/
def mZ : MetricsRecord :=
  { database := "ns", table := "t",
    metrics := [("partition_count", .num 0), ("file_count", .num 0),
                ("total_bytes", .num 0), ("total_records", .num 0),
                ("avg_partition_size", .num 0)] }

/-- Fixture: a record holding one value that fails float coercion between
two coercible ones. -/
def mMix : MetricsRecord :=
  { database := "db", table := "tt",
    metrics := [("partition_count", .num 3), ("file_count", .null),
                ("total_bytes", .num 7)] }

/-- Fixture: a record in which every metric value fails float coercion. -/
def mNull : MetricsRecord :=
  { database := "db", table := "tt",
    metrics := [("partition_count", .null), ("file_count", .null)] }

example :
    get_table_metrics "ns" "t"
      (.ok { partition_count := 0, total_files := none, total_bytes := none,
             total_records := none }) =
    some { database := "ns", table := "t",
           metrics := [("partition_count", .num 0), ("file_count", .num 0),
                       ("total_bytes", .num 0), ("total_records", .num 0),
                       ("avg_partition_size", .num 0)] } := by
  norm_num [get_table_metrics, orZero]

example :
    get_table_metrics "ns" "t"
      (.ok { partition_count := 4, total_files := some 10, total_bytes := some 4096,
             total_records := some 1000 }) =
    some { database := "ns", table := "t",
           metrics := [("partition_count", .num 4), ("file_count", .num 10),
                       ("total_bytes", .num 4096), ("total_records", .num 1000),
                       ("avg_partition_size", .num 1024)] } := by
  norm_num [get_table_metrics, orZero]

example :
    get_table_metrics "ns" "t"
      (.ok { partition_count := 2, total_files := some 1, total_bytes := none,
             total_records := some 1 }) = none := by
  norm_num [get_table_metrics, orZero]

/-- C2: for every extraction result, `avg_partition_size` equals
`total_bytes / partition_count` when `partition_count > 0`, and `0` when
`partition_count = 0`; extraction of a zero-partition table always
produces a record (no division-by-zero fault). -/
theorem c2_avg_partition_size (names table : String) (row : EngineRow) :
    (row.partition_count = 0 →
      ∃ m, get_table_metrics names table (.ok row) = some m ∧
        m.metrics.lookup "avg_partition_size" = some (.num 0)) ∧
    (∀ m, get_table_metrics names table (.ok row) = some m →
      0 < row.partition_count →
      ∃ b : Int, row.total_bytes = some b ∧
        m.metrics.lookup "total_bytes" = some (.num (b : ℚ)) ∧
        m.metrics.lookup "avg_partition_size" =
          some (.num ((b : ℚ) / (row.partition_count : ℚ)))) := by
  constructor
  · intro h0
    refine ⟨{ database := names, table := table,
              metrics :=
                [("partition_count", .num (row.partition_count : ℚ)),
                 ("file_count", .num ((orZero row.total_files : Int) : ℚ)),
                 ("total_bytes", .num ((orZero row.total_bytes : Int) : ℚ)),
                 ("total_records", .num ((orZero row.total_records : Int) : ℚ)),
                 ("avg_partition_size", .num 0)] }, ?_, rfl⟩
    simp [get_table_metrics, h0]
  · intro m hm hpos
    simp only [get_table_metrics, if_pos hpos] at hm
    cases hb : row.total_bytes with
    | none => rw [hb] at hm; exact absurd hm (by simp)
    | some b =>
      rw [hb] at hm
      simp only [Option.some.injEq] at hm
      subst hm
      exact ⟨b, rfl, rfl, rfl⟩

/-- C2 witness: the theorem applied to the concrete row `rowA`
(4 partitions, 4096 total bytes), whose extraction yields `mA`. -/
theorem c2_avg_partition_size_witness :
    ∃ b : Int, rowA.total_bytes = some b ∧
      mA.metrics.lookup "total_bytes" = some (.num (b : ℚ)) ∧
      mA.metrics.lookup "avg_partition_size" =
        some (.num ((b : ℚ) / (rowA.partition_count : ℚ))) :=
  (c2_avg_partition_size "ns" "t" rowA).2 mA
    (by norm_num [get_table_metrics, rowA, mA, orZero])
    (by norm_num [rowA])

/-- C3: every record produced by extraction substitutes `0` for a
null/missing sum field, carries no null value in any field, and has
`avg_partition_size = 0` for a zero-partition table. -/
theorem c3_null_sums (names table : String) (row : EngineRow)
    (m : MetricsRecord)
    (h : get_table_metrics names table (.ok row) = some m) :
    (row.total_files = none → m.metrics.lookup "file_count" = some (.num 0)) ∧
    (row.total_bytes = none → m.metrics.lookup "total_bytes" = some (.num 0)) ∧
    (row.total_records = none →
      m.metrics.lookup "total_records" = some (.num 0)) ∧
    (∀ kv ∈ m.metrics, kv.2 ≠ PyVal.null) ∧
    (row.partition_count = 0 →
      m.metrics.lookup "avg_partition_size" = some (.num 0)) := by
  by_cases hpos : 0 < row.partition_count
  · simp only [get_table_metrics, if_pos hpos] at h
    cases hb : row.total_bytes with
    | none => rw [hb] at h; exact absurd h (by simp)
    | some b =>
      rw [hb] at h
      simp only [Option.some.injEq] at h
      subst h
      refine ⟨?_, ?_, ?_, ?_, ?_⟩
      · intro hf; simp [List.lookup, orZero, hf]
      · intro hbn; exact absurd hbn (by simp)
      · intro hr; simp [List.lookup, orZero, hr]
      · simp
      · intro h0; omega
  · simp only [get_table_metrics, if_neg hpos] at h
    simp only [Option.some.injEq] at h
    subst h
    refine ⟨?_, ?_, ?_, ?_, ?_⟩
    · intro hf; simp [List.lookup, orZero, hf]
    · intro hbn; simp [List.lookup, orZero, hbn]
    · intro hr; simp [List.lookup, orZero, hr]
    · simp
    · intro _; rfl

/-- C3 witness: the theorem applied to `rowZ` (zero partitions, all sums
null), whose extraction yields `mZ`; every substituted field is `0`. -/
theorem c3_null_sums_witness :
    mZ.metrics.lookup "file_count" = some (.num 0) ∧
    mZ.metrics.lookup "total_bytes" = some (.num 0) ∧
    mZ.metrics.lookup "total_records" = some (.num 0) ∧
    mZ.metrics.lookup "avg_partition_size" = some (.num 0) := by
  have h := c3_null_sums "ns" "t" rowZ mZ
    (by norm_num [get_table_metrics, rowZ, mZ, orZero])
  exact ⟨h.1 rfl, h.2.1 rfl, h.2.2.1 rfl, h.2.2.2.2 rfl⟩

/-- C4: `push_metrics_to_prometheus` succeeds exactly when the gateway push
succeeds, whatever the record's content — gauge-setting work never raises
— and on a push failure the re-raised error carries exactly the request
that was being pushed. -/
theorem c4_publish_raises_iff_push_fails (m : MetricsRecord) (gateway : String)
    (gatewayOk : Bool) :
    ((push_metrics_to_prometheus m gateway gatewayOk).isOk = true ↔
      gatewayOk = true) ∧
    (gatewayOk = false →
      push_metrics_to_prometheus m gateway gatewayOk =
        .error { attempted := pushRequestOf gateway m }) := by
  cases gatewayOk <;> simp [push_metrics_to_prometheus, Except.isOk, Except.toBool]

/-- C4 witness: with the gateway failing, publishing `mA` re-raises the
push error carrying the attempted request. -/
theorem c4_publish_raises_iff_push_fails_witness :
    push_metrics_to_prometheus mA "localhost:9091" false =
      .error { attempted := pushRequestOf "localhost:9091" mA } :=
  (c4_publish_raises_iff_push_fails mA "localhost:9091" false).2 rfl

/-- C7: a namespace descriptor is normalized to a single string taking the
first component of a list descriptor; a plain string is kept; in
particular both `["sales"]` and `"sales"` resolve to `"sales"`, for
`list_namespaces` and `list_tables` alike. -/
theorem c7_namespace_normalization (s : String) (rest : List String)
    (tpages : Except String (List (List TableDesc))) :
    normalize_namespace (.str s) = some s ∧
    normalize_namespace (.list (s :: rest)) = some s ∧
    list_namespaces (.ok [[.str s]]) = [s] ∧
    list_namespaces (.ok [[.list (s :: rest)]]) = [s] ∧
    list_tables (.list (s :: rest)) tpages = list_tables (.str s) tpages ∧
    list_namespaces (.ok [[.list ["sales"], .str "sales"]]) =
      ["sales", "sales"] :=
  ⟨rfl, rfl, rfl, rfl, rfl, by decide⟩

/-- Helper: `normalizeAll` fails as soon as one descriptor in the list
fails to normalize. -/
theorem normalizeAll_eq_none {l : List NamespaceDesc} {d : NamespaceDesc}
    (hd : d ∈ l) (hn : normalize_namespace d = none) :
    normalizeAll l = none := by
  induction l with
  | nil => cases hd
  | cons a l ih =>
    rcases List.mem_cons.mp hd with h | h
    · subst h; simp [normalizeAll, hn]
    · cases ha : normalize_namespace a <;> simp [normalizeAll, ha, ih h]

/-- C8: `list_namespaces` and `list_tables` resolve every enumeration
failure to the empty list — a paginator error, an empty-list namespace
descriptor (whose normalization raises `IndexError`), anywhere in the
pages — so callers observe zero namespaces/tables and proceed. -/
theorem c8_enumeration_errors_empty (msg : String) (names : NamespaceDesc)
    (tpages : Except String (List (List TableDesc)))
    (npages : List (List NamespaceDesc)) :
    list_namespaces (.error msg) = [] ∧
    list_tables names (.error msg) = [] ∧
    list_tables (.list []) tpages = [] ∧
    ((∃ d ∈ npages.flatten, normalize_namespace d = none) →
      list_namespaces (.ok npages) = []) := by
  refine ⟨rfl, ?_, rfl, ?_⟩
  · cases names with
    | str s => rfl
    | list l => cases l <;> rfl
  · rintro ⟨d, hd, hn⟩
    simp [list_namespaces, normalizeAll_eq_none hd hn]

/-- C8 witness: a failing paginator and a bad descriptor each yield the
empty list on the concrete inputs. -/
theorem c8_enumeration_errors_empty_witness :
    list_namespaces (.error "boom") = [] ∧
    list_tables (.str "ns") (.error "boom") = [] ∧
    list_tables (.list []) (.ok [[{ name := "t" }]]) = [] ∧
    list_namespaces (.ok [[NamespaceDesc.list []]]) = [] := by
  have h := c8_enumeration_errors_empty "boom" (.str "ns")
    (.ok [[{ name := "t" }]]) [[.list []]]
  exact ⟨h.1, h.2.1, h.2.2.1, h.2.2.2 ⟨.list [], by simp, rfl⟩⟩

/-- Helper: the boolean result of `process_table` is extraction success
and-ed with gateway success. -/
theorem process_table_fst (names table : String)
    (engine : Except String EngineRow) (gateway : String) (gatewayOk : Bool) :
    (process_table names table engine gateway gatewayOk).1 =
      ((get_table_metrics names table engine).isSome && gatewayOk) := by
  cases hg : get_table_metrics names table engine <;> cases gatewayOk <;>
    simp [process_table, push_metrics_to_prometheus, hg]

/-- C9: when extraction succeeds, the record is printed to standard output
as the first observable event — before any push attempt, and in particular
even when the push then fails; a push failure leaves the emission in place
and reports no extraction error. -/
theorem c9_emit_before_push (names table : String)
    (engine : Except String EngineRow) (gateway : String) (m : MetricsRecord)
    (h : get_table_metrics names table engine = some m) :
    (∀ gatewayOk, ((process_table names table engine gateway gatewayOk).2).head? =
      some (.emit m)) ∧
    process_table names table engine gateway false =
      (false, [.emit m, .pushFail (pushRequestOf gateway m)]) ∧
    Event.extractionError names table ∉
      (process_table names table engine gateway false).2 := by
  refine ⟨?_, ?_, ?_⟩
  · intro gatewayOk
    cases gatewayOk <;> simp [process_table, h, push_metrics_to_prometheus]
  · simp [process_table, h, push_metrics_to_prometheus]
  · simp [process_table, h, push_metrics_to_prometheus]

/-- C9 witness: extracting `rowA` succeeds with record `mA`; with a failing
gateway the trace is the emission followed by the failed push. -/
theorem c9_emit_before_push_witness :
    process_table "ns" "t" (.ok rowA) "gw" false =
      (false, [.emit mA, .pushFail (pushRequestOf "gw" mA)]) :=
  (c9_emit_before_push "ns" "t" (.ok rowA) "gw" mA
    (by norm_num [get_table_metrics, rowA, mA, orZero])).2.1

/-- C1: `process_table` returns `True` exactly when extraction and push
both succeed; a failed extraction yields `False` with no push attempted;
and among tables A, B, C where only B's extraction fails, A and C succeed
and exactly one failure is recorded. -/
theorem c1_pipeline_isolation (names table : String)
    (engine : Except String EngineRow) (gateway : String) (gatewayOk : Bool) :
    ((process_table names table engine gateway gatewayOk).1 = true ↔
      ((get_table_metrics names table engine).isSome = true ∧
        gatewayOk = true)) ∧
    (get_table_metrics names table engine = none →
      process_table names table engine gateway gatewayOk =
        (false, [.extractionError names table])) ∧
    (∀ (A B C : String) (eng : String → Except String EngineRow)
        (gwOk : String → Bool),
      (get_table_metrics names A (eng A)).isSome = true →
      get_table_metrics names B (eng B) = none →
      (get_table_metrics names C (eng C)).isSome = true →
      gwOk A = true → gwOk C = true →
      run_tables names [A, B, C] eng gateway gwOk =
        [(A, true), (B, false), (C, true)] ∧
      (run_tables names [A, B, C] eng gateway gwOk).countP
        (fun p => decide (p.2 = false)) = 1) := by
  refine ⟨?_, ?_, ?_⟩
  · rw [process_table_fst]; simp
  · intro h; simp [process_table, h]
  · intro A B C eng gwOk hA hB hC hgA hgC
    have hrun : run_tables names [A, B, C] eng gateway gwOk =
        [(A, true), (B, false), (C, true)] := by
      simp [run_tables, process_table_fst, hA, hB, hC, hgA, hgC]
    refine ⟨hrun, ?_⟩
    rw [hrun]
    simp [List.countP_cons]

/-- C1 witness: among tables t1, t2, t3 with the engine erroring only on
t2, the run records successes for t1 and t3 and exactly one failure. -/
theorem c1_pipeline_isolation_witness :
    run_tables "ns" ["t1", "t2", "t3"]
      (fun t => if t = "t2" then .error "boom" else .ok rowA) "gw"
      (fun _ => true) = [("t1", true), ("t2", false), ("t3", true)] ∧
    (run_tables "ns" ["t1", "t2", "t3"]
      (fun t => if t = "t2" then .error "boom" else .ok rowA) "gw"
      (fun _ => true)).countP (fun p => decide (p.2 = false)) = 1 :=
  (c1_pipeline_isolation "ns" "t" (.ok rowA) "gw" true).2.2 "t1" "t2" "t3"
    (fun t => if t = "t2" then .error "boom" else .ok rowA) (fun _ => true)
    rfl rfl rfl rfl rfl

/-- C10: every publish registers exactly the six fixed gauge series, each
with label names `database`, `table`; the `iceberg_table_info` sample is
set to `1` as the first sample, before and independently of the coercion
loop, and survives even when every metric value fails coercion. -/
theorem c10_fixed_gauges (m : MetricsRecord) :
    (buildRegistry m).collectors =
      [{ name := "iceberg_table_partitions", labelNames := ["database", "table"] },
       { name := "iceberg_table_files", labelNames := ["database", "table"] },
       { name := "iceberg_storage_total_bytes", labelNames := ["database", "table"] },
       { name := "iceberg_table_records", labelNames := ["database", "table"] },
       { name := "iceberg_table_avg_partition_size", labelNames := ["database", "table"] },
       { name := "iceberg_table_info", labelNames := ["database", "table"] }] ∧
    (buildRegistry m).samples.head? =
      some { name := "iceberg_table_info", labels := metricLabels m, value := 1 } ∧
    ((∀ kv ∈ m.metrics, coerceFloat kv.2 = none) →
      (buildRegistry m).samples =
        [{ name := "iceberg_table_info", labels := metricLabels m, value := 1 }]) := by
  refine ⟨rfl, rfl, ?_⟩
  intro h
  have hnil : (m.metrics.filterMap fun kv =>
      match tableMetricsGauges.lookup kv.1, coerceFloat kv.2 with
      | some g, some q =>
        some ({ name := g, labels := metricLabels m, value := q } : Sample)
      | _, _ => none) = [] := by
    rw [List.filterMap_eq_nil_iff]
    intro kv hkv
    cases hl : tableMetricsGauges.lookup kv.1 <;> simp [h kv hkv]
  simp [buildRegistry, hnil]

/-- C10 witness: for `mNull`, whose every value fails coercion, the pushed
registry still holds the info sample (set to 1) and nothing else. -/
theorem c10_fixed_gauges_witness :
    (buildRegistry mNull).samples =
      [{ name := "iceberg_table_info", labels := metricLabels mNull, value := 1 }] :=
  (c10_fixed_gauges mNull).2.2 (by simp [mNull, coerceFloat])

/-- C6: every coercible metric value is set on its gauge; a value that
fails float coercion only removes that one gauge's sample — the registry
equals the one built without that entry — and the push proceeds, its
outcome depending only on the gateway. -/
theorem c6_uncoercible_value_skipped (m : MetricsRecord) (gateway : String)
    (gatewayOk : Bool) :
    (∀ kv ∈ m.metrics, ∀ g, tableMetricsGauges.lookup kv.1 = some g →
      ∀ q, coerceFloat kv.2 = some q →
        { name := g, labels := metricLabels m, value := q } ∈
          (buildRegistry m).samples) ∧
    (∀ (pre post : List (String × PyVal)) (k : String) (v : PyVal) (g : String),
      m.metrics = pre ++ (k, v) :: post →
      tableMetricsGauges.lookup k = some g →
      coerceFloat v = none →
      buildRegistry m =
        buildRegistry { database := m.database, table := m.table,
                        metrics := pre ++ post }) ∧
    ((push_metrics_to_prometheus m gateway gatewayOk).isOk = true ↔
      gatewayOk = true) := by
  refine ⟨?_, ?_, ?_⟩
  · intro kv hkv g hl q hq
    exact List.mem_cons_of_mem _
      (List.mem_filterMap.mpr ⟨kv, hkv, by simp [hl, hq]⟩)
  · intro pre post k v g hm hl hv
    simp [buildRegistry, hm, List.filterMap_append, List.filterMap_cons, hl,
      hv, metricLabels]
  · cases gatewayOk <;>
      simp [push_metrics_to_prometheus, Except.isOk, Except.toBool]

/-- C6 witness: in `mMix` the null `file_count` entry is skipped — the
registry equals the one built without it — while the coercible
`partition_count` entry is still set on its gauge. -/
theorem c6_uncoercible_value_skipped_witness :
    buildRegistry mMix =
      buildRegistry { database := "db", table := "tt",
                      metrics := [("partition_count", .num 3),
                                  ("total_bytes", .num 7)] } ∧
    { name := "iceberg_table_partitions", labels := metricLabels mMix,
      value := 3 } ∈ (buildRegistry mMix).samples := by
  have h := c6_uncoercible_value_skipped mMix "gw" true
  constructor
  · exact h.2.1 [("partition_count", .num 3)] [("total_bytes", .num 7)]
      "file_count" .null "iceberg_table_files" rfl rfl rfl
  · exact h.1 ("partition_count", .num 3) (by simp [mMix])
      "iceberg_table_partitions" rfl 3 rfl

/-- Helper: a list of gateway entries none of which carries key `k`
filters to nothing at `k`. -/
theorem filter_eq_nil_of_no_key (st : GatewayState) (k : String × String)
    (h : ∀ p ∈ st, p.1 ≠ k) :
    st.filter (fun p => decide (p.1 = k)) = [] := by
  rw [List.filter_eq_nil_iff]
  intro p hp
  simp [h p hp]

/-- Helper: replacing the entries under one grouping key leaves the
entries filtered at any other key unchanged. -/
theorem filter_map_replace (st : GatewayState) (key k : String × String)
    (reg : CollectorRegistry) (hk : k ≠ key) :
    ((st.map fun p => if p.1 = key then (key, reg) else p).filter
        fun p => decide (p.1 = k)) =
      st.filter fun p => decide (p.1 = k) := by
  induction st with
  | nil => rfl
  | cons a st ih =>
    by_cases ha : a.1 = key
    · simp [List.filter_cons, ha, Ne.symm hk, ih]
    · simp [List.filter_cons, ha, ih]

/-- Helper: once some entry carries the grouping key, the replacement map
leaves exactly one entry at that key: the pushed registry. -/
theorem filter_map_replace_self (st : GatewayState) (key : String × String)
    (reg : CollectorRegistry)
    (hst : st.Pairwise fun a b => a.1 ≠ b.1)
    (h : ∃ p ∈ st, p.1 = key) :
    ((st.map fun p => if p.1 = key then (key, reg) else p).filter
        fun p => decide (p.1 = key)) = [(key, reg)] := by
  induction st with
  | nil => simp at h
  | cons a st ih =>
    rcases List.pairwise_cons.mp hst with ⟨ha, hst'⟩
    by_cases hak : a.1 = key
    · have hmap : ((st.map fun p => if p.1 = key then (key, reg) else p).filter
          fun p => decide (p.1 = key)) = [] := by
        rw [List.filter_eq_nil_iff]
        intro p hp
        rcases List.mem_map.mp hp with ⟨q, hq, rfl⟩
        have hqk : q.1 ≠ key := fun hqk => (ha q hq) (hak.trans hqk.symm)
        simp [if_neg hqk, hqk]
      simp [List.filter_cons, hak, hmap]
    · have h' : ∃ p ∈ st, p.1 = key := by
        rcases h with ⟨p, hp, hpk⟩
        rcases List.mem_cons.mp hp with rfl | hp'
        · exact absurd hpk hak
        · exact ⟨p, hp', hpk⟩
      simp [List.filter_cons, hak, ih hst' h']

/-- Helper: when some entry already carries the grouping key, `applyPush`
is the replacement map. -/
theorem applyPush_of_mem (st : GatewayState) (req : PushRequest)
    (h : st.any (fun p => decide (p.1 = req.groupingKey)) = true) :
    applyPush st req =
      st.map fun p =>
        if p.1 = req.groupingKey then (req.groupingKey, req.registry) else p := by
  unfold applyPush
  rw [if_pos h]

/-- Helper: after a push, any entry carrying the pushed grouping key is
exactly the pushed registry. -/
theorem applyPush_key_entry (st : GatewayState) (req : PushRequest) :
    ∀ q ∈ applyPush st req, q.1 = req.groupingKey →
      q = (req.groupingKey, req.registry) := by
  intro q hq hqk
  unfold applyPush at hq
  by_cases h : st.any (fun p => decide (p.1 = req.groupingKey)) = true
  · rw [if_pos h] at hq
    rcases List.mem_map.mp hq with ⟨p, hp, rfl⟩
    by_cases hpk : p.1 = req.groupingKey
    · simp [if_pos hpk]
    · simp only [if_neg hpk] at hqk
      exact absurd hqk hpk
  · rw [if_neg h] at hq
    rcases List.mem_append.mp hq with hq | hq
    · exact absurd (List.any_eq_true.mpr ⟨q, hq, decide_eq_true hqk⟩) h
    · simpa using hq

/-- Helper: after a push, the gateway holds an entry at the pushed key. -/
theorem applyPush_mem (st : GatewayState) (req : PushRequest) :
    (applyPush st req).any (fun p => decide (p.1 = req.groupingKey)) = true := by
  unfold applyPush
  by_cases h : st.any (fun p => decide (p.1 = req.groupingKey)) = true
  · rw [if_pos h]
    rcases List.any_eq_true.mp h with ⟨p, hp, hpk⟩
    refine List.any_eq_true.mpr ⟨(req.groupingKey, req.registry), ?_, by simp⟩
    exact List.mem_map.mpr ⟨p, hp, by simp [of_decide_eq_true hpk]⟩
  · rw [if_neg h]
    exact List.any_eq_true.mpr ⟨(req.groupingKey, req.registry), by simp, by simp⟩

/-- Helper: pushing the same request twice is the same as pushing it once. -/
theorem applyPush_idem (st : GatewayState) (req : PushRequest) :
    applyPush (applyPush st req) req = applyPush st req := by
  rw [applyPush_of_mem _ _ (applyPush_mem st req)]
  conv_rhs => rw [← List.map_id (applyPush st req)]
  apply List.map_congr_left
  intro q hq
  by_cases hqk : q.1 = req.groupingKey
  · simp [hqk, applyPush_key_entry st req q hq hqk]
  · simp [if_neg hqk]

/-- Helper: with well-formed gateway state (one entry per key), a push
leaves exactly one entry at the pushed key — the pushed registry. -/
theorem applyPush_filter_self (st : GatewayState) (req : PushRequest)
    (hst : st.Pairwise fun a b => a.1 ≠ b.1) :
    (applyPush st req).filter (fun p => decide (p.1 = req.groupingKey)) =
      [(req.groupingKey, req.registry)] := by
  unfold applyPush
  by_cases h : st.any (fun p => decide (p.1 = req.groupingKey)) = true
  · rw [if_pos h]
    refine filter_map_replace_self st req.groupingKey req.registry hst ?_
    rcases List.any_eq_true.mp h with ⟨p, hp, hpk⟩
    exact ⟨p, hp, of_decide_eq_true hpk⟩
  · rw [if_neg h]
    rw [List.filter_append]
    rw [filter_eq_nil_of_no_key st _
      (fun p hp hpk => h (List.any_eq_true.mpr ⟨p, hp, decide_eq_true hpk⟩))]
    simp

/-- Helper: a push does not touch the entries held at any other key. -/
theorem applyPush_filter_other (st : GatewayState) (req : PushRequest)
    (k : String × String) (hk : k ≠ req.groupingKey) :
    (applyPush st req).filter (fun p => decide (p.1 = k)) =
      st.filter (fun p => decide (p.1 = k)) := by
  unfold applyPush
  by_cases h : st.any (fun p => decide (p.1 = req.groupingKey)) = true
  · rw [if_pos h]
    exact filter_map_replace st req.groupingKey k req.registry hk
  · rw [if_neg h]
    rw [List.filter_append]
    simp [Ne.symm hk]

/-- C5: a publish builds its gauges in a registry derived from that call's
record alone and pushes it whole under the grouping key (database, table);
on a well-formed gateway (one entry per key), pushing the same record
twice is idempotent, the gateway holds exactly the pushed registry at that
key, and the entries at every other key are untouched. -/
theorem c5_fresh_registry_idempotent_push (st : GatewayState)
    (m : MetricsRecord) (gateway : String) (req : PushRequest)
    (hreq : push_metrics_to_prometheus m gateway true = .ok req)
    (hst : st.Pairwise fun a b => a.1 ≠ b.1) :
    req.registry = buildRegistry m ∧
    req.groupingKey = (m.database, m.table) ∧
    applyPush (applyPush st req) req = applyPush st req ∧
    (applyPush st req).filter (fun p => decide (p.1 = req.groupingKey)) =
      [(req.groupingKey, req.registry)] ∧
    (∀ k, k ≠ req.groupingKey →
      (applyPush st req).filter (fun p => decide (p.1 = k)) =
        st.filter (fun p => decide (p.1 = k))) := by
  simp only [push_metrics_to_prometheus, if_true, Except.ok.injEq] at hreq
  subst hreq
  exact ⟨rfl, rfl, applyPush_idem st _, applyPush_filter_self st _ hst,
    fun k hk => applyPush_filter_other st _ k hk⟩

/-- C5 witness: pushing the request for `mA` onto the empty gateway —
twice pushing equals once, the key (ns, t) holds exactly the pushed
registry, and a different key is untouched. -/
theorem c5_fresh_registry_idempotent_push_witness :
    applyPush (applyPush [] (pushRequestOf "gw" mA)) (pushRequestOf "gw" mA) =
      applyPush [] (pushRequestOf "gw" mA) ∧
    (applyPush [] (pushRequestOf "gw" mA)).filter
        (fun p => decide (p.1 = (pushRequestOf "gw" mA).groupingKey)) =
      [((pushRequestOf "gw" mA).groupingKey, (pushRequestOf "gw" mA).registry)] ∧
    (applyPush [] (pushRequestOf "gw" mA)).filter
        (fun p => decide (p.1 = (("other", "key") : String × String))) =
      ([] : GatewayState).filter
        (fun p => decide (p.1 = (("other", "key") : String × String))) := by
  have h := c5_fresh_registry_idempotent_push [] mA "gw" (pushRequestOf "gw" mA)
    rfl List.Pairwise.nil
  exact ⟨h.2.2.1, h.2.2.2.1,
    h.2.2.2.2 ("other", "key") (by simp [pushRequestOf, mA])⟩
